import Mathlib

/-!
# Verification of the snake-game simulation core

Shallow embedding of `src/main.rs` of the `rust_snake_game` repository.
`f64` coordinates are modelled as exact rationals (`ℚ`): all game arithmetic
is addition/subtraction of cell-sized steps, comparison, and division by the
cell size, which are exact on the values the program uses.  Rendering-only
data (colors, the OpenGL handle) is omitted; randomness is passed in
explicitly (a drawn integer for `rand::gen_range`, a stream of sampled
positions for the food-reset loop); a Rust `panic!` or a non-terminating
recursion is modelled by `Option`, with `none` for the diverging case.
-/

namespace SnakeGame

/-- `struct Position { x: f64, y: f64 }` (main.rs lines 89-92). -/
structure Position where
  x : ℚ
  y : ℚ
deriving DecidableEq

/-- `enum Direction` (main.rs lines 81-87). -/
inductive Direction where
  | Left
  | Right
  | Up
  | Down
deriving DecidableEq

/-- `enum SnakeMoveResult { Ok, Food, End }` (main.rs lines 94-98). -/
inductive SnakeMoveResult where
  | Ok
  | Food
  | End
deriving DecidableEq

/-- `struct Snake` (main.rs lines 100-105); the `LinkedList<Position>` body is a
`List` with the front (head of the snake) first; the render-only `color`
field is omitted. -/
structure Snake where
  body : List Position
  size : ℚ
  direction : Direction
deriving DecidableEq

/-- `Snake::new` (main.rs lines 108-115): one-segment body, direction `Right`. -/
def Snake.new (size : ℚ) (initial_pos : Position) : Snake :=
  { body := [initial_pos], size := size, direction := Direction.Right }

/-- `Snake::self_collision` (main.rs lines 170-174): true iff some body segment
has both coordinates equal to the queried position's. -/
def Snake.self_collision (s : Snake) (new_pos : Position) : Bool :=
  s.body.any fun pos => pos.x == new_pos.x && pos.y == new_pos.y

/-- The one-step move of the head in the current direction
(main.rs lines 135-140): `Left`/`Right` shift `x` by `size`, `Up`/`Down`
shift `y`. -/
def step (head : Position) (d : Direction) (size : ℚ) : Position :=
  match d with
  | Direction.Left => ⟨head.x - size, head.y⟩
  | Direction.Right => ⟨head.x + size, head.y⟩
  | Direction.Up => ⟨head.x, head.y - size⟩
  | Direction.Down => ⟨head.x, head.y + size⟩

/-- The wrap of one coordinate against one grid extent, exactly the inlined
branches of main.rs lines 144-154: a coordinate past the extent becomes `0`,
a negative coordinate becomes `extent - size`, anything else is unchanged. -/
def wrap (c extent size : ℚ) : ℚ :=
  if c ≥ extent then 0
  else if c < 0 then extent - size
  else c

/-- `Snake::update` (main.rs lines 132-168).  `none` models the
`expect("Snake has no body")` panic on an empty body.  Note a faithfully kept
quirk of the source: the food comparison on line 161 uses the PRE-wrap
coordinates `new_x`/`new_y` (here `stepped`), while the body receives the
wrapped `new_pos`.  The `pop_back().unwrap()` on line 164 cannot fail because
a head was just pushed, so it is modelled as `dropLast` directly. -/
def Snake.update (s : Snake) (food_pos : Position) (width height : ℚ) :
    Option (Snake × SnakeMoveResult) :=
  match s.body with
  | [] => none
  | head :: _ =>
    let stepped := step head s.direction s.size
    let new_pos : Position := ⟨wrap stepped.x width s.size, wrap stepped.y height s.size⟩
    if s.self_collision new_pos then
      some (s, SnakeMoveResult.End)
    else if stepped.x = food_pos.x ∧ stepped.y = food_pos.y then
      some ({ s with body := new_pos :: s.body }, SnakeMoveResult.Food)
    else
      some ({ s with body := (new_pos :: s.body).dropLast }, SnakeMoveResult.Ok)

/-- `struct Food` (main.rs lines 177-181), render-only `color` omitted. -/
structure Food where
  position : Position
  size : ℚ
deriving DecidableEq

/-- `Food::new` (main.rs lines 184-190). -/
def Food.new (initial_pos : Position) (item_size : ℚ) : Food :=
  { position := initial_pos, size := item_size }

/-- `Food::reset` (main.rs lines 200-208): rejection sampling.  The stream of
`random_pos` draws is passed in as `candidates`; the recursion commits the
first candidate that does not collide with the snake body, and `none` models
the non-terminating case (candidate stream exhausted with every candidate
rejected). -/
def Food.reset (f : Food) (candidates : List Position) (snake : Snake) : Option Food :=
  match candidates with
  | [] => none
  | new_pos :: rest =>
    if snake.self_collision new_pos then
      Food.reset f rest snake
    else
      some { f with position := new_pos }

/-- The grid dimension in cells along one extent, as computed in `random_pos`
(main.rs lines 248-251): `((extent / item_size) - 1.0).floor() as i64`. -/
def grid_size (extent item_size : ℚ) : ℤ :=
  ⌊extent / item_size - 1⌋

/-- The postcondition of `rng.gen_range(0..g)` (main.rs lines 252-253): the
drawn integer lies in `[0, g)`.  The draw itself is passed to `random_pos`
explicitly. -/
def gen_range_ok (d g : ℤ) : Prop :=
  0 ≤ d ∧ d < g

/-- `random_pos` (main.rs lines 246-262) with the two `gen_range` draws passed
in: each drawn cell index is scaled by `item_size`.  The draws are constrained
by `gen_range_ok` against `grid_size` where the theorems need it. -/
def random_pos (width height item_size : ℚ) (rand_x rand_y : ℤ) : Position :=
  { x := (rand_x : ℚ) * item_size, y := (rand_y : ℚ) * item_size }

/-- The piston `Button`/`Key` input, reduced to what `App::handle_input`
distinguishes: the four arrow keys, any other key, and any non-keyboard
button. -/
inductive Key where
  | Up
  | Down
  | Left
  | Right
  | Other
deriving DecidableEq

/-- A piston `Button`: a keyboard key or anything else (mouse, controller,
hat), which `App::handle_input` treats uniformly via its catch-all arm. -/
inductive Button where
  | Keyboard (k : Key)
  | NonKeyboard
deriving DecidableEq

/-- `struct App` (main.rs lines 17-25), with the render-only `gl` field
omitted. -/
structure App where
  snake : Snake
  food : Food
  item_size : ℚ
  width : ℚ
  height : ℚ
  ended : Bool
deriving DecidableEq

/-- `App::init` (main.rs lines 28-41): two independent `random_pos` draws, one
for the food and one for the snake, with no exclusion check between them; the
snake is built with the hard-coded size `15.0`. -/
def App.init (width height item_size : ℚ) (food_rx food_ry snake_rx snake_ry : ℤ) : App :=
  let food_pos := random_pos width height item_size food_rx food_ry
  let snake_pos := random_pos width height item_size snake_rx snake_ry
  { snake := Snake.new 15 snake_pos
    food := Food.new food_pos item_size
    item_size := item_size
    width := width
    height := height
    ended := false }

/-- `App::update` (main.rs lines 54-66): one tick of the controller.  On `Ok`
nothing further happens; on `Food` the food is reset against the already
advanced snake; on `End` the terminal flag is set.  `candidates` feeds the
food-reset sampling; `none` models a panic inside `Snake::update` or a
non-terminating reset. -/
def App.update (a : App) (candidates : List Position) : Option App :=
  match a.snake.update a.food.position a.width a.height with
  | none => none
  | some (s, SnakeMoveResult.Ok) => some { a with snake := s }
  | some (s, SnakeMoveResult.Food) =>
    match Food.reset a.food candidates s with
    | none => none
    | some f => some { a with snake := s, food := f }
  | some (s, SnakeMoveResult.End) => some { a with snake := s, ended := true }

/-- `App::handle_input` (main.rs lines 68-78): a `match` with guards; an arrow
key whose guard fails, any other key, and any non-keyboard button all fall
through to the catch-all arm, which keeps `last_direction`. -/
def App.handle_input (a : App) (btn : Button) : App :=
  let last_direction := a.snake.direction
  let d :=
    match btn with
    | Button.Keyboard Key.Up =>
      if last_direction ≠ Direction.Down then Direction.Up else last_direction
    | Button.Keyboard Key.Down =>
      if last_direction ≠ Direction.Up then Direction.Down else last_direction
    | Button.Keyboard Key.Left =>
      if last_direction ≠ Direction.Right then Direction.Left else last_direction
    | Button.Keyboard Key.Right =>
      if last_direction ≠ Direction.Left then Direction.Right else last_direction
    | _ => last_direction
  { a with snake := { a.snake with direction := d } }

/-- One update-event iteration of the event loop in `main`
(main.rs lines 227-243): the loop first checks `app.ended` and breaks without
touching the state, so a tick in the `Ended` state changes nothing; otherwise
the tick runs `App::update`. -/
def main_frame (a : App) (candidates : List Position) : Option App :=
  if a.ended then some a
  else a.update candidates

/-- The exact opposite of a heading (spec vocabulary for the no-reversal
law). -/
def opposite : Direction → Direction
  | Direction.Left => Direction.Right
  | Direction.Right => Direction.Left
  | Direction.Up => Direction.Down
  | Direction.Down => Direction.Up

/-- The direction requested by an input event: the four arrow keys request
their direction, every other input requests nothing (spec vocabulary). -/
def requested : Button → Option Direction
  | Button.Keyboard Key.Up => some Direction.Up
  | Button.Keyboard Key.Down => some Direction.Down
  | Button.Keyboard Key.Left => some Direction.Left
  | Button.Keyboard Key.Right => some Direction.Right
  | _ => none

/-- Modelled from the spec: `set_direction(requested)` accepts a new heading
unless it is the exact opposite of the current heading, in which case the
current heading is retained; non-directional input leaves the heading
unchanged.  Used as the comparison point for `App::handle_input`. -/
def set_direction_spec (cur : Direction) (req : Option Direction) : Direction :=
  match req with
  | some d => if d = opposite cur then cur else d
  | none => cur

/-- The snake states reachable in a run of the program: `Snake::new` from
`App::init`, evolution by `Snake::update` from `App::update`, and direction
overwrites from `App::handle_input`. -/
inductive ReachableSnake : Snake → Prop where
  | new (size : ℚ) (p : Position) : ReachableSnake (Snake.new size p)
  | update (s s' : Snake) (fp : Position) (w h : ℚ) (r : SnakeMoveResult)
      (hs : ReachableSnake s) (hu : s.update fp w h = some (s', r)) : ReachableSnake s'
  | turn (s : Snake) (d : Direction) (hs : ReachableSnake s) :
      ReachableSnake { s with direction := d }

/-! ## Helper lemmas -/

/-- Unfolding of `Snake.update` on a nonempty body: the single equation of
main.rs lines 132-168 with the head exposed. -/
lemma update_eq (s : Snake) (fp : Position) (w h : ℚ) (hd : Position)
    (tl : List Position) (hb : s.body = hd :: tl) :
    s.update fp w h =
      (if s.self_collision ⟨wrap (step hd s.direction s.size).x w s.size,
                            wrap (step hd s.direction s.size).y h s.size⟩ then
        some (s, SnakeMoveResult.End)
      else if (step hd s.direction s.size).x = fp.x ∧
              (step hd s.direction s.size).y = fp.y then
        some ({ s with
                body := ⟨wrap (step hd s.direction s.size).x w s.size,
                         wrap (step hd s.direction s.size).y h s.size⟩ :: s.body },
              SnakeMoveResult.Food)
      else
        some ({ s with
                body := (⟨wrap (step hd s.direction s.size).x w s.size,
                          wrap (step hd s.direction s.size).y h s.size⟩ :: s.body).dropLast },
              SnakeMoveResult.Ok)) := by
  simp only [Snake.update, hb]

/-- `self_collision` as a statement about the body list. -/
lemma self_collision_iff (s : Snake) (p : Position) :
    s.self_collision p = true ↔ ∃ q ∈ s.body, q.x = p.x ∧ q.y = p.y := by
  simp [Snake.self_collision, List.any_eq_true]

/-- On a nonempty body the head lookup of `Snake::update` succeeds, so the
result is always `some`. -/
lemma update_isSome_of_nonempty (s : Snake) (fp : Position) (w h : ℚ)
    (hne : s.body ≠ []) : (s.update fp w h).isSome = true := by
  rcases hb : s.body with _ | ⟨hd, tl⟩
  · exact absurd hb hne
  · rw [update_eq s fp w h hd tl hb]
    split_ifs <;> rfl

/-- `Snake::update` never empties the body. -/
lemma update_body_nonempty (s s' : Snake) (fp : Position) (w h : ℚ)
    (r : SnakeMoveResult) (hne : s.body ≠ [])
    (hu : s.update fp w h = some (s', r)) : s'.body ≠ [] := by
  rcases hb : s.body with _ | ⟨hd, tl⟩
  · exact absurd hb hne
  · rw [update_eq s fp w h hd tl hb] at hu
    split_ifs at hu <;>
      simp only [Option.some_inj, Prod.mk.injEq] at hu <;>
      obtain ⟨hs', _⟩ := hu <;> subst hs'
    · exact hne
    · simp
    · apply List.ne_nil_of_length_pos
      simp [hb]

/-! ## Claim theorems -/

/-- C5: for every coordinate `c`, extent `e` and cell size `s` with `0 < s`,
`s` dividing `e` (a positive whole number of cells) and `c` at most one cell
step outside `[0, e)`, the wrap computation returns `c` unchanged when
`0 ≤ c < e`, returns `0` when `c ≥ e`, returns `e - s` when `c < 0`, and its
result always lies in `[0, e)`. -/
theorem wrap_in_range (c e s : ℚ) (hs : 0 < s)
    (hk : ∃ k : ℕ, 0 < k ∧ e = (k : ℚ) * s)
    (hc : -s ≤ c ∧ c < e + s) :
    (0 ≤ c ∧ c < e → wrap c e s = c) ∧
    (e ≤ c → wrap c e s = 0) ∧
    (c < 0 → wrap c e s = e - s) ∧
    0 ≤ wrap c e s ∧ wrap c e s < e := by
  obtain ⟨k, hk1, hke⟩ := hk
  have hk1' : (1 : ℚ) ≤ (k : ℚ) := by exact_mod_cast hk1
  have hse : s ≤ e := by nlinarith
  have he : 0 < e := lt_of_lt_of_le hs hse
  refine ⟨fun hin => ?_, fun hge => ?_, fun hlt => ?_, ?_, ?_⟩
  · obtain ⟨h0, h1⟩ := hin
    simp only [wrap]
    rw [if_neg (by simpa using not_le.mpr h1), if_neg (by simpa using not_lt.mpr h0)]
  · simp only [wrap]
    rw [if_pos hge]
  · simp only [wrap]
    rw [if_neg (by simp only [ge_iff_le, not_le]; linarith), if_pos hlt]
  · simp only [wrap]
    split_ifs <;> linarith
  · simp only [wrap]
    split_ifs <;> linarith

/-- Witness for C5 at `c = -15`, `e = 30`, `s = 15` (the spec's own wrap
scenario): the result is `30 - 15 = 15` and lies in `[0, 30)`. -/
theorem wrap_in_range_witness :
    wrap (-15) 30 15 = 30 - 15 ∧ 0 ≤ wrap (-15) 30 15 ∧ wrap (-15) 30 15 < 30 :=
  ⟨(wrap_in_range (-15) 30 15 (by norm_num) ⟨2, by norm_num⟩ (by norm_num)).2.2.1
      (by norm_num),
   (wrap_in_range (-15) 30 15 (by norm_num) ⟨2, by norm_num⟩ (by norm_num)).2.2.2.1,
   (wrap_in_range (-15) 30 15 (by norm_num) ⟨2, by norm_num⟩ (by norm_num)).2.2.2.2⟩

/-- C1 (evidence of the divergence): with body `[(15, 0)]`, size `15`,
direction `Right`, grid `30 × 30` and food at `(0, 0)`, the stepped head
`(30, 0)` wraps to `(0, 0)`, which is exactly the food cell — yet
`Snake::update` returns `Ok` and removes the tail, because the food
comparison on main.rs line 161 uses the pre-wrap coordinates `new_x`/`new_y`
rather than the wrapped `new_pos` that becomes the head. -/
theorem update_food_check_uses_prewrap_head :
    wrap (step ⟨15, 0⟩ Direction.Right 15).x 30 15 = (0 : ℚ) ∧
    wrap (step ⟨15, 0⟩ Direction.Right 15).y 30 15 = (0 : ℚ) ∧
    (⟨[⟨15, 0⟩], 15, Direction.Right⟩ : Snake).update ⟨0, 0⟩ 30 30 =
      some (⟨[⟨0, 0⟩], 15, Direction.Right⟩, SnakeMoveResult.Ok) := by
  norm_num [Snake.update, Snake.self_collision, step, wrap]

/-- C3: whenever `Snake::update` returns, a `Food` result comes with a body
one longer than before, an `Ok` result with a body of unchanged length, and
an `End` result with the snake completely unchanged (the failed head is
discarded before any mutation). -/
theorem update_growth_law (s : Snake) (fp : Position) (w h : ℚ)
    (s' : Snake) (r : SnakeMoveResult)
    (hu : s.update fp w h = some (s', r)) :
    (r = SnakeMoveResult.Food → s'.body.length = s.body.length + 1) ∧
    (r = SnakeMoveResult.Ok → s'.body.length = s.body.length) ∧
    (r = SnakeMoveResult.End → s' = s) := by
  rcases hb : s.body with _ | ⟨hd, tl⟩
  · rw [Snake.update, hb] at hu
    simp at hu
  · rw [update_eq s fp w h hd tl hb] at hu
    split_ifs at hu with h1 h2 <;>
      simp only [Option.some_inj, Prod.mk.injEq] at hu <;>
      obtain ⟨hs', hr⟩ := hu <;>
      subst hs' <;> subst hr
    · exact ⟨fun hr' => by simp at hr', fun hr' => by simp at hr', fun _ => rfl⟩
    · refine ⟨fun _ => by simp [hb], fun hr' => by simp at hr', fun hr' => by simp at hr'⟩
    · refine ⟨fun hr' => by simp at hr', fun _ => ?_, fun hr' => by simp at hr'⟩
      simp [List.length_dropLast, hb]

/-- Witness for C3: the spec's growth scenario — a one-segment snake at
`(0, 0)` moving `Right` on a `30 × 30` grid with food at `(15, 0)` grows to
length 2 with result `Food`. -/
theorem update_growth_law_witness :
    (Snake.new 15 ⟨0, 0⟩).update ⟨15, 0⟩ 30 30 =
      some (⟨[⟨15, 0⟩, ⟨0, 0⟩], 15, Direction.Right⟩, SnakeMoveResult.Food) ∧
    (⟨[⟨15, 0⟩, ⟨0, 0⟩], 15, Direction.Right⟩ : Snake).body.length =
      (Snake.new 15 ⟨0, 0⟩).body.length + 1 :=
  ⟨by norm_num [Snake.update, Snake.new, Snake.self_collision, step, wrap],
   (update_growth_law (Snake.new 15 ⟨0, 0⟩) ⟨15, 0⟩ 30 30
      (⟨[⟨15, 0⟩, ⟨0, 0⟩], 15, Direction.Right⟩ : Snake) SnakeMoveResult.Food
      (by norm_num [Snake.update, Snake.new, Snake.self_collision, step, wrap])).1 rfl⟩

/-- C4: `Snake::update` returns `End` exactly when the wrapped new head cell
collides with the current body; when it does, the returned snake is the
unchanged one; and `self_collision` occupancy holds exactly when some body
segment matches the queried cell on both coordinates.  The head `hd` and the
direction are arbitrary, so this holds regardless of which direction produced
the head. -/
theorem update_collided_iff (s : Snake) (fp : Position) (w h : ℚ)
    (hd : Position) (tl : List Position) (hb : s.body = hd :: tl) :
    ((∃ s', s.update fp w h = some (s', SnakeMoveResult.End)) ↔
      s.self_collision ⟨wrap (step hd s.direction s.size).x w s.size,
                        wrap (step hd s.direction s.size).y h s.size⟩ = true) ∧
    (s.self_collision ⟨wrap (step hd s.direction s.size).x w s.size,
                       wrap (step hd s.direction s.size).y h s.size⟩ = true →
      s.update fp w h = some (s, SnakeMoveResult.End)) ∧
    (∀ p : Position, s.self_collision p = true ↔
      ∃ q ∈ s.body, q.x = p.x ∧ q.y = p.y) := by
  rw [update_eq s fp w h hd tl hb]
  refine ⟨⟨?_, ?_⟩, ?_, fun p => self_collision_iff s p⟩
  · rintro ⟨s', hs'⟩
    by_contra hcol
    rw [if_neg hcol] at hs'
    split_ifs at hs' <;> simp at hs'
  · intro hcol
    exact ⟨s, by rw [if_pos hcol]⟩
  · intro hcol
    rw [if_pos hcol]

/-- Witness for C4: the spec's collision scenario — body `[(15,0), (0,0)]`
moving `Left` with no food ahead steps onto its own tail cell `(0,0)` and
yields `End` with the snake unchanged. -/
theorem update_collided_iff_witness :
    (⟨[⟨15, 0⟩, ⟨0, 0⟩], 15, Direction.Left⟩ : Snake).update ⟨100, 100⟩ 30 30 =
      some (⟨[⟨15, 0⟩, ⟨0, 0⟩], 15, Direction.Left⟩, SnakeMoveResult.End) :=
  (update_collided_iff (⟨[⟨15, 0⟩, ⟨0, 0⟩], 15, Direction.Left⟩ : Snake)
      ⟨100, 100⟩ 30 30 ⟨15, 0⟩ [⟨0, 0⟩] rfl).2.1
    (by norm_num [Snake.self_collision, step, wrap])

/-- C2: once the terminal flag is set, a further update-event iteration of the
event loop leaves the whole application state unchanged (in particular the
snake body length, the food position and the terminal flag): `main` checks
`app.ended` and breaks before running `App::update`. -/
theorem tick_terminal_noop (a : App) (cs : List Position) (he : a.ended = true) :
    main_frame a cs = some a := by
  simp [main_frame, he]

/-- Witness for C2 on a concrete ended state. -/
theorem tick_terminal_noop_witness :
    main_frame ⟨Snake.new 15 ⟨0, 0⟩, Food.new ⟨15, 15⟩ 15, 15, 300, 300, true⟩ [] =
      some ⟨Snake.new 15 ⟨0, 0⟩, Food.new ⟨15, 15⟩ 15, 15, 300, 300, true⟩ :=
  tick_terminal_noop ⟨Snake.new 15 ⟨0, 0⟩, Food.new ⟨15, 15⟩ 15, 15, 300, 300, true⟩ [] rfl

/-- C6: after `App::handle_input` the direction is exactly the one given by
the spec's `set_direction` policy — the requested arrow direction unless it is
the exact opposite of the current one (then the current heading is retained),
and unchanged for non-directional input — and in particular the direction
after a single input event is never the exact opposite of the one before. -/
theorem handle_input_no_reversal (a : App) (btn : Button) :
    (a.handle_input btn).snake.direction =
      set_direction_spec a.snake.direction (requested btn) ∧
    (a.handle_input btn).snake.direction ≠ opposite a.snake.direction := by
  rcases btn with k | _
  · rcases k <;> rcases hd : a.snake.direction <;>
      simp [App.handle_input, set_direction_spec, requested, opposite, hd]
  · rcases hd : a.snake.direction <;>
      simp [App.handle_input, set_direction_spec, requested, opposite, hd]

/-- C7: whenever the rejection-sampling loop of `Food::reset` terminates, the
committed food position fails the snake's occupancy check, and hence differs
from every cell of the snake's body. -/
theorem reset_excludes_body (f f' : Food) (cs : List Position) (snake : Snake)
    (h : Food.reset f cs snake = some f') :
    snake.self_collision f'.position = false ∧
    ∀ p ∈ snake.body, p ≠ f'.position := by
  have h1 : snake.self_collision f'.position = false := by
    revert h
    induction cs with
    | nil => intro h; simp [Food.reset] at h
    | cons c rest ih =>
      intro h
      rw [Food.reset] at h
      by_cases hc : snake.self_collision c = true
      · rw [if_pos hc] at h
        exact ih h
      · rw [if_neg hc] at h
        simp only [Option.some_inj] at h
        rw [← h]
        simpa using hc
  refine ⟨h1, fun p hp hpe => ?_⟩
  have h2 : ¬ ∃ q ∈ snake.body, q.x = f'.position.x ∧ q.y = f'.position.y := by
    rw [← self_collision_iff]
    simp [h1]
  exact h2 ⟨p, hp, by rw [hpe], by rw [hpe]⟩

/-- Witness for C7: with body `[(0,0)]` and candidate stream
`[(0,0), (15,15)]`, the first candidate is rejected and the committed
position `(15,15)` is not occupied by the snake. -/
theorem reset_excludes_body_witness :
    (Snake.new 15 ⟨0, 0⟩).self_collision (⟨⟨15, 15⟩, 15⟩ : Food).position = false :=
  (reset_excludes_body (Food.new ⟨0, 0⟩ 15) ⟨⟨15, 15⟩, 15⟩ [⟨0, 0⟩, ⟨15, 15⟩]
      (Snake.new 15 ⟨0, 0⟩)
      (by norm_num [Food.reset, Food.new, Snake.new, Snake.self_collision])).1

/-- C8: with a positive cell size, each extent at least two cells, and the
`gen_range` draws in their ranges, the cell produced by `random_pos` has both
coordinates non-negative integer multiples of the cell size, with
`x < (⌊width / cell_size⌋ - 1) * cell_size` and
`y < (⌊height / cell_size⌋ - 1) * cell_size` — so the last row and the last
column of the grid are never produced. -/
theorem random_pos_in_margin (width height item_size : ℚ) (rx ry : ℤ)
    (hs : 0 < item_size)
    (hw : 2 ≤ ⌊width / item_size⌋) (hh : 2 ≤ ⌊height / item_size⌋)
    (hx : gen_range_ok rx (grid_size width item_size))
    (hy : gen_range_ok ry (grid_size height item_size)) :
    (∃ k : ℤ, 0 ≤ k ∧ (random_pos width height item_size rx ry).x = (k : ℚ) * item_size) ∧
    (∃ k : ℤ, 0 ≤ k ∧ (random_pos width height item_size rx ry).y = (k : ℚ) * item_size) ∧
    0 ≤ (random_pos width height item_size rx ry).x ∧
    (random_pos width height item_size rx ry).x <
      ((⌊width / item_size⌋ : ℚ) - 1) * item_size ∧
    0 ≤ (random_pos width height item_size rx ry).y ∧
    (random_pos width height item_size rx ry).y <
      ((⌊height / item_size⌋ : ℚ) - 1) * item_size := by
  obtain ⟨hx0, hx1⟩ := hx
  obtain ⟨hy0, hy1⟩ := hy
  have hgx : grid_size width item_size = ⌊width / item_size⌋ - 1 := by
    simp [grid_size, Int.floor_sub_one]
  have hgy : grid_size height item_size = ⌊height / item_size⌋ - 1 := by
    simp [grid_size, Int.floor_sub_one]
  rw [hgx] at hx1
  rw [hgy] at hy1
  have hx1' : (rx : ℚ) < (⌊width / item_size⌋ : ℚ) - 1 := by
    have : ((rx : ℤ) : ℚ) < ((⌊width / item_size⌋ - 1 : ℤ) : ℚ) := by exact_mod_cast hx1
    push_cast at this
    exact this
  have hy1' : (ry : ℚ) < (⌊height / item_size⌋ : ℚ) - 1 := by
    have : ((ry : ℤ) : ℚ) < ((⌊height / item_size⌋ - 1 : ℤ) : ℚ) := by exact_mod_cast hy1
    push_cast at this
    exact this
  simp only [random_pos]
  refine ⟨⟨rx, hx0, rfl⟩, ⟨ry, hy0, rfl⟩, ?_, ?_, ?_, ?_⟩
  · exact mul_nonneg (by exact_mod_cast hx0) hs.le
  · exact mul_lt_mul_of_pos_right hx1' hs
  · exact mul_nonneg (by exact_mod_cast hy0) hs.le
  · exact mul_lt_mul_of_pos_right hy1' hs

/-- Witness for C8 on the program's own configuration (`300 × 300` grid,
cell size `15`) with both draws `0`. -/
theorem random_pos_in_margin_witness :
    0 ≤ (random_pos 300 300 15 0 0).x ∧
    (random_pos 300 300 15 0 0).x < ((⌊(300 : ℚ) / 15⌋ : ℚ) - 1) * 15 :=
  ⟨(random_pos_in_margin 300 300 15 0 0 (by norm_num) (by norm_num) (by norm_num)
      (by norm_num [gen_range_ok, grid_size]) (by norm_num [gen_range_ok, grid_size])).2.2.1,
   (random_pos_in_margin 300 300 15 0 0 (by norm_num) (by norm_num) (by norm_num)
      (by norm_num [gen_range_ok, grid_size]) (by norm_num [gen_range_ok, grid_size])).2.2.2.1⟩

/-- C9: every snake reachable in a run (constructed by `Snake::new`, evolved
by `Snake::update`, direction overwritten by `App::handle_input`) has a
nonempty body, and therefore the `expect("Snake has no body")` failure branch
at the start of `Snake::update` — modelled as `none` — is unreachable: every
update call on a reachable snake returns `some`. -/
theorem reachable_body_nonempty (s : Snake) (hs : ReachableSnake s) :
    s.body ≠ [] ∧ ∀ fp w h, (s.update fp w h).isSome = true := by
  induction hs with
  | new size p =>
    refine ⟨by simp [Snake.new], fun fp w h => ?_⟩
    exact update_isSome_of_nonempty _ fp w h (by simp [Snake.new])
  | update s s' fp w h r hs hu ih =>
    have hne := update_body_nonempty s s' fp w h r ih.1 hu
    exact ⟨hne, fun fp' w' h' => update_isSome_of_nonempty _ fp' w' h' hne⟩
  | turn s d hs ih =>
    exact ⟨ih.1, fun fp' w' h' => update_isSome_of_nonempty _ fp' w' h' ih.1⟩

/-- Witness for C9 at the freshly constructed snake. -/
theorem reachable_body_nonempty_witness :
    (Snake.new 15 ⟨0, 0⟩).body ≠ [] ∧
    ((Snake.new 15 ⟨0, 0⟩).update ⟨15, 0⟩ 30 30).isSome = true :=
  ⟨(reachable_body_nonempty (Snake.new 15 ⟨0, 0⟩) (ReachableSnake.new 15 ⟨0, 0⟩)).1,
   (reachable_body_nonempty (Snake.new 15 ⟨0, 0⟩) (ReachableSnake.new 15 ⟨0, 0⟩)).2
      ⟨15, 0⟩ 30 30⟩

/-- C10: `App::init` draws the food cell and the snake cell independently with
no exclusion check; with all four `gen_range` draws equal to `0` — each a
possible outcome of its range on the program's `300 × 300`, cell-size-`15`
configuration — the initial food position coincides with the snake's sole
initial body cell. -/
theorem init_no_exclusion_check :
    gen_range_ok 0 (grid_size 300 15) ∧
    (App.init 300 300 15 0 0 0 0).food.position = ⟨0, 0⟩ ∧
    (App.init 300 300 15 0 0 0 0).snake.body = [⟨0, 0⟩] := by
  refine ⟨by norm_num [gen_range_ok, grid_size], ?_, ?_⟩ <;>
    norm_num [App.init, random_pos, Snake.new, Food.new]

end SnakeGame
